import Mathlib

/-!
Verification of the SWGOH StackRank Visual Editor core
(`Tools/VisualEditor/editor.js`).

The JavaScript source is shallowly embedded below: JS objects become
structures with `Option` fields for optional properties, JS numbers become
`Int`, and the imperative loops (`forEach`, early-return validation)
become structural recursion with explicit accumulators.  Definitions keep
the source's names; the JS property names `include` / `exclude` of a
category definition are rendered `incl` / `excl` because `include` is a
Lean keyword.
-/

namespace StackRank

/-- A category definition inside a synergy set
(`{include, exclude?, numberMatchesRequired}` in the JSON schema). -/
structure CategoryDefinition where
  incl : Option (List String)
  excl : Option (List String)
  numberMatchesRequired : Option Int
deriving DecidableEq, Repr

/-- A synergy set owned by one character. -/
structure SynergySet where
  synergyEnhancement : Option Int
  synergyEnhancementOmicron : Option Int
  characters : Option (List String)
  skipIfPresentCharacters : Option (List String)
  categoryDefinitions : Option (List CategoryDefinition)
deriving DecidableEq, Repr

/-- The `{gear?, rarity?}` flag objects `ignoreRequirements` /
`ignoreSynergyRequirements` hanging off a character record. -/
structure IgnoreReq where
  gear : Option Bool
  rarity : Option Bool
deriving DecidableEq, Repr

/-- A character record of the dataset. -/
structure Character where
  id : String
  baseTier : Int
  omicronBoost : Option Int
  ignoreRequirements : Option IgnoreReq
  ignoreSynergyRequirements : Option IgnoreReq
  requiredZetas : Option (List String)
  requiresAllZetas : Option Bool
  requiredOmicrons : Option (List String)
  requiresAllOmicrons : Option Bool
  categories : Option (List String)
  synergySets : Option (List SynergySet)
deriving DecidableEq, Repr

/-- The ambient editor state consulted by `calculateFinalTier`: the
dataset, the two display checkboxes, and the external omicron reference
data (`selectedOmicronModeSet`, `omicronAbilityIndex`). -/
structure Env where
  characterData : List Character
  includeOmicron : Bool
  includeSynergy : Bool
  selectedOmicronModeSet : List String
  omicronAbilityIndex : String → Option (List String)

/-- `hasMatchingOmicronAbilities` helper inside `calculateFinalTier`:
a character qualifies when some of its omicron ability modes is among the
currently selected modes. -/
def hasMatchingOmicronAbilities (env : Env) (characterId : String) : Bool :=
  if env.selectedOmicronModeSet.isEmpty then false
  else
    match env.omicronAbilityIndex characterId with
    | none => false
    | some characterModes =>
        characterModes.any fun mode => env.selectedOmicronModeSet.contains mode

/-- `doesSynergyOmicronApplyToCharacter`: omicron bonuses only apply to
explicitly listed characters. -/
def doesSynergyOmicronApplyToCharacter (synergySet : SynergySet)
    (character : Character) : Bool :=
  match synergySet.characters with
  | none => false
  | some cs => cs.contains character.id

/-- `doesSynergySetApplyToCharacter`: explicit character references first,
then category-based definitions. -/
def doesSynergySetApplyToCharacter (synergySet : SynergySet)
    (character : Character) : Bool :=
  if (match synergySet.characters with
      | none => false
      | some cs => cs.contains character.id) then
    true
  else
    match synergySet.categoryDefinitions with
    | none => false
    | some defs =>
        if defs.isEmpty then false
        else
          let charCategories := character.categories.getD []
          defs.any fun catDef =>
            let includeCategories := catDef.incl.getD []
            let excludeCategories := catDef.excl.getD []
            let hasAllIncludes :=
              includeCategories.all fun cat => charCategories.contains cat
            let hasAnyExcludes :=
              excludeCategories.any fun cat => charCategories.contains cat
            hasAllIncludes && !hasAnyExcludes

/-- `getSynergySlotUsage`: explicit characters plus the required category
matches. -/
def getSynergySlotUsage (synergySet : SynergySet) : Int :=
  let totalSlots : Int :=
    match synergySet.characters with
    | none => 0
    | some cs => (cs.length : Int)
  match synergySet.categoryDefinitions with
  | none => totalSlots
  | some defs =>
      totalSlots + defs.foldl (fun sum catDef =>
        sum + catDef.numberMatchesRequired.getD 0) 0

/-- Provenance of the applied omicron bonus inside `calculateFinalTier`:
the JS variable `omicronSource` holds `null`, the string `'character'`
(the bonus is the target's own), or the id of the granting character. -/
inductive OmicronSource where
  | null
  | character
  | id (s : String)
deriving DecidableEq, Repr

/-- Conversion of the JS `bestSynergyOmicronSource` (`null` or an id)
into an `OmicronSource`, as performed by the assignment
`omicronSource = bestSynergyOmicronSource`. -/
def srcOf : Option String → OmicronSource
  | none => OmicronSource.null
  | some s => OmicronSource.id s

/-- The personal-omicron computation at the top of the
`includeOmicron` block of `calculateFinalTier`. -/
def personalOmicron (env : Env) (character : Character) : Int :=
  match character.omicronBoost with
  | some b => if hasMatchingOmicronAbilities env character.id then b else 0
  | none => if hasMatchingOmicronAbilities env character.id then 1 else 0

/-- Inner `forEach` of the synergy-omicron scan in `calculateFinalTier`:
walks the synergy sets of one other character `otherId`, updating the
accumulator `(bestSynergyOmicronBonus, bestSynergyOmicronSource)`. -/
def scanSetsOm (target : Character) (otherId : String) :
    List SynergySet → Int × Option String → Int × Option String
  | [], acc => acc
  | synergySet :: rest, acc =>
      let synergyOmicronBonus := synergySet.synergyEnhancementOmicron.getD 0
      let acc' :=
        if synergyOmicronBonus = 0 then acc
        else if doesSynergyOmicronApplyToCharacter synergySet target then
          if acc.1 < synergyOmicronBonus then (synergyOmicronBonus, some otherId)
          else acc
        else acc
      scanSetsOm target otherId rest acc'

/-- Outer `characterData.forEach` of the synergy-omicron scan in
`calculateFinalTier`. -/
def scanCharsOm (env : Env) (target : Character) :
    List Character → Int × Option String → Int × Option String
  | [], acc => acc
  | otherChar :: rest, acc =>
      let acc' :=
        match otherChar.synergySets with
        | none => acc
        | some sets =>
            if sets.isEmpty then acc
            else if hasMatchingOmicronAbilities env otherChar.id then
              scanSetsOm target otherChar.id sets acc
            else acc
      scanCharsOm env target rest acc'

/-- The full synergy-omicron scan of `calculateFinalTier`: best
externally granted omicron bonus together with the granting character. -/
def externalOmicronScan (env : Env) (target : Character) :
    Int × Option String :=
  scanCharsOm env target env.characterData (0, none)

/-- The applied omicron bonus and its provenance, i.e. the decision
`if (personalOmicron > 0 && personalOmicron >= bestSynergyOmicronBonus)`
closing the `includeOmicron` block of `calculateFinalTier`. -/
def appliedOmicronOf (env : Env) (character : Character) :
    Int × OmicronSource :=
  if env.includeOmicron then
    let personal := personalOmicron env character
    let scan := externalOmicronScan env character
    if 0 < personal ∧ scan.1 ≤ personal then (personal, OmicronSource.character)
    else if 0 < scan.1 then (scan.1, srcOf scan.2)
    else (0, OmicronSource.null)
  else (0, OmicronSource.null)

/-- One entry of the `{bestStandard, bestOmicron}` records built by
`calculateSynergyTiers`. -/
structure SynergyTierEntry where
  finalTier : Int
  baseTier : Int
  appliedOmicronBonus : Int
  omicronSource : OmicronSource
  synergyEnhancement : Int
  synergySet : SynergySet
  setIndex : Nat
deriving DecidableEq, Repr

/-- The standard enhancement a set contributes
(`const standardEnhancement = synergySet.synergyEnhancement || 0`). -/
def enhOf (s : SynergySet) : Int := s.synergyEnhancement.getD 0

/-- The `bestStandard` update of one iteration of the
`forEach((synergySet, setIndex))` loop of `calculateSynergyTiers`:
a set with positive enhancement replaces the running best when no best
exists yet or its resulting tier is strictly lower. -/
def updateStd (character : Character) (bestStandard : Option SynergyTierEntry)
    (synergySet : SynergySet) (setIndex : Nat) : Option SynergyTierEntry :=
  if 0 < enhOf synergySet then
    match bestStandard with
    | none =>
        some ⟨character.baseTier - enhOf synergySet, character.baseTier, 0,
              OmicronSource.null, enhOf synergySet, synergySet, setIndex⟩
    | some b =>
        if character.baseTier - enhOf synergySet < b.finalTier then
          some ⟨character.baseTier - enhOf synergySet, character.baseTier, 0,
                OmicronSource.null, enhOf synergySet, synergySet, setIndex⟩
        else bestStandard
  else bestStandard

/-- The `bestOmicron` update of one iteration of the loop of
`calculateSynergyTiers`: only taken when the character's own
`omicronBoost` and the set's standard enhancement are both positive
(`synergyEnhancementOmicron` never applies to the owning character). -/
def updateOm (character : Character) (omicronBoost : Int)
    (bestOmicron : Option SynergyTierEntry) (synergySet : SynergySet)
    (setIndex : Nat) : Option SynergyTierEntry :=
  if 0 < omicronBoost ∧ 0 < enhOf synergySet then
    match bestOmicron with
    | none =>
        some ⟨character.baseTier - omicronBoost - enhOf synergySet,
              character.baseTier, omicronBoost, OmicronSource.character,
              enhOf synergySet, synergySet, setIndex⟩
    | some b =>
        if character.baseTier - omicronBoost - enhOf synergySet <
            b.finalTier then
          some ⟨character.baseTier - omicronBoost - enhOf synergySet,
                character.baseTier, omicronBoost, OmicronSource.character,
                enhOf synergySet, synergySet, setIndex⟩
        else bestOmicron
  else bestOmicron

/-- The `forEach((synergySet, setIndex))` loop of `calculateSynergyTiers`,
with the accumulator `(bestStandard, bestOmicron)`. -/
def synergyTiersLoop (character : Character) (omicronBoost : Int) :
    List SynergySet → Nat →
    Option SynergyTierEntry × Option SynergyTierEntry →
    Option SynergyTierEntry × Option SynergyTierEntry
  | [], _, acc => acc
  | synergySet :: rest, setIndex, acc =>
      synergyTiersLoop character omicronBoost rest (setIndex + 1)
        (updateStd character acc.1 synergySet setIndex,
         updateOm character omicronBoost acc.2 synergySet setIndex)

/-- `calculateSynergyTiers`; the JS variable
`omicronBoost = character.omicronBoost ?? 0` is inlined. -/
def calculateSynergyTiers (character : Character) :
    Option SynergyTierEntry × Option SynergyTierEntry :=
  match character.synergySets with
  | none => (none, none)
  | some sets =>
      if sets.isEmpty then (none, none)
      else synergyTiersLoop character (character.omicronBoost.getD 0) sets 0
        (none, none)

/-- The record returned by `calculateFinalTier`. -/
structure FinalTierResult where
  finalTier : Int
  appliedOmicronBonus : Int
  omicronSource : OmicronSource
deriving DecidableEq, Repr

/-- `calculateFinalTier`. -/
def calculateFinalTier (env : Env) (character : Character) :
    FinalTierResult :=
  let applied := appliedOmicronOf env character
  let appliedOmicronBonus := applied.1
  let omicronSource := applied.2
  let finalTier := character.baseTier - appliedOmicronBonus
  let finalTier :=
    if env.includeSynergy ∧ ¬(character.synergySets.getD []).isEmpty = true then
      let synergyTiers := calculateSynergyTiers character
      let bestSynergy :=
        if env.includeOmicron ∧ synergyTiers.2.isSome = true then synergyTiers.2
        else if synergyTiers.1.isSome then synergyTiers.1
        else none
      match bestSynergy with
      | some bs =>
          character.baseTier - appliedOmicronBonus - bs.synergyEnhancement
      | none => finalTier
    else finalTier
  ⟨max 1 (min 19 finalTier), appliedOmicronBonus, omicronSource⟩

/-! ### Declarative view of the external omicron scan

The spec (§4.3 Step 2) describes the externally granted omicron component
as: collect `s.synergyEnhancementOmicron` from every qualifying granting
character's synergy sets with a positive bonus that match the target, and
take the maximum of the collected values (default 0), tracking the
granting character.  The following definitions phrase that collection
declaratively; the lemmas relate the imperative scan to it. -/

/-- Collected `(bonus, grantingId)` pairs contributed by the synergy sets
of one granting character: the sets with a positive
`synergyEnhancementOmicron` that explicitly list the target. -/
def omicronPairsOfSets (target : Character) (xid : String)
    (sets : List SynergySet) : List (Int × String) :=
  sets.filterMap fun s =>
    let bonus := s.synergyEnhancementOmicron.getD 0
    if 0 < bonus ∧ doesSynergyOmicronApplyToCharacter s target = true then
      some (bonus, xid)
    else none

/-- Collected `(bonus, grantingId)` pairs over a list of characters:
only characters qualifying for omicron contribute. -/
def omicronPairsChars (env : Env) (target : Character) :
    List Character → List (Int × String)
  | [] => []
  | x :: rest =>
      (if hasMatchingOmicronAbilities env x.id then
        omicronPairsOfSets target x.id (x.synergySets.getD [])
      else []) ++ omicronPairsChars env target rest

/-- All external omicron grants the dataset offers the target (the scan
of `calculateFinalTier` walks the whole dataset, target included). -/
def omicronPairs (env : Env) (target : Character) : List (Int × String) :=
  omicronPairsChars env target env.characterData

/-- The external omicron grants as the spec's words have them: collected
from every *other* character of the dataset, the target excluded. -/
def omicronPairsOthers (env : Env) (target : Character) :
    List (Int × String) :=
  omicronPairsChars env target
    (env.characterData.filter fun x => x.id != target.id)

/-- Maximum of the collected bonuses, default 0 (spec §4.3 Step 2:
`externalOmicron(target) = max(collected, default 0)`). -/
def pairsMax (ps : List (Int × String)) : Int :=
  ps.foldr (fun p m => max p.1 m) 0

lemma pairsMax_nonneg (ps : List (Int × String)) : 0 ≤ pairsMax ps := by
  induction ps with
  | nil => simp [pairsMax]
  | cons p rest ih => simp only [pairsMax, List.foldr_cons] at *; omega

lemma pairsMax_cons (p : Int × String) (ps : List (Int × String)) :
    pairsMax (p :: ps) = max p.1 (pairsMax ps) := rfl

lemma pairsMax_append (l1 l2 : List (Int × String)) :
    pairsMax (l1 ++ l2) = max (pairsMax l1) (pairsMax l2) := by
  induction l1 with
  | nil =>
      have h2 := pairsMax_nonneg l2
      have h0 : pairsMax ([] : List (Int × String)) = 0 := rfl
      rw [List.nil_append]
      omega
  | cons p rest ih =>
      rw [List.cons_append, pairsMax_cons, pairsMax_cons, ih]
      omega

lemma omicronPairsOfSets_pos (target : Character) (xid : String)
    (sets : List SynergySet) :
    ∀ p ∈ omicronPairsOfSets target xid sets, 0 < p.1 := by
  intro p hp
  simp only [omicronPairsOfSets, List.mem_filterMap] at hp
  obtain ⟨s, _, hs⟩ := hp
  by_cases h : 0 < s.synergyEnhancementOmicron.getD 0 ∧
      doesSynergyOmicronApplyToCharacter s target = true
  · simp only [if_pos h] at hs
    cases hs
    exact h.1
  · simp [if_neg h] at hs

lemma omicronPairsChars_pos (env : Env) (target : Character)
    (chars : List Character) :
    ∀ p ∈ omicronPairsChars env target chars, 0 < p.1 := by
  induction chars with
  | nil => simp [omicronPairsChars]
  | cons x rest ih =>
      intro p hp
      simp only [omicronPairsChars, List.mem_append] at hp
      rcases hp with hp | hp
      · by_cases h : hasMatchingOmicronAbilities env x.id = true
        · rw [if_pos h] at hp
          exact omicronPairsOfSets_pos target x.id _ p hp
        · simp [if_neg h] at hp
      · exact ih p hp

lemma scanSetsOm_fst (target : Character) (otherId : String)
    (sets : List SynergySet) :
    ∀ acc : Int × Option String, 0 ≤ acc.1 →
      (scanSetsOm target otherId sets acc).1 =
        max acc.1 (pairsMax (omicronPairsOfSets target otherId sets)) := by
  induction sets with
  | nil => intro acc hacc; simp [scanSetsOm, omicronPairsOfSets, pairsMax]; omega
  | cons s rest ih =>
      intro acc hacc
      have hpairs :
          omicronPairsOfSets target otherId (s :: rest) =
            (if 0 < s.synergyEnhancementOmicron.getD 0 ∧
                doesSynergyOmicronApplyToCharacter s target = true then
              (s.synergyEnhancementOmicron.getD 0, otherId) ::
                omicronPairsOfSets target otherId rest
            else omicronPairsOfSets target otherId rest) := by
        simp only [omicronPairsOfSets, List.filterMap_cons]
        by_cases h : 0 < s.synergyEnhancementOmicron.getD 0 ∧
            doesSynergyOmicronApplyToCharacter s target = true
        · rw [if_pos h, if_pos h]
        · rw [if_neg h, if_neg h]
      set bonus := s.synergyEnhancementOmicron.getD 0 with hbonus
      by_cases hzero : bonus = 0
      · have : scanSetsOm target otherId (s :: rest) acc =
            scanSetsOm target otherId rest acc := by
          simp [scanSetsOm, ← hbonus, hzero]
        rw [this, ih acc hacc, hpairs]
        rw [if_neg (by omega : ¬(0 < bonus ∧
          doesSynergyOmicronApplyToCharacter s target = true))]
      · by_cases happ : doesSynergyOmicronApplyToCharacter s target = true
        · by_cases hlt : acc.1 < bonus
          · have hstep : scanSetsOm target otherId (s :: rest) acc =
                scanSetsOm target otherId rest (bonus, some otherId) := by
              simp [scanSetsOm, ← hbonus, hzero, happ, hlt]
            have hpos : (0 : Int) < bonus := by omega
            rw [hstep, ih (bonus, some otherId) (by simpa using le_of_lt hpos),
              hpairs, if_pos ⟨hpos, happ⟩, pairsMax_cons]
            simp only
            omega
          · have hstep : scanSetsOm target otherId (s :: rest) acc =
                scanSetsOm target otherId rest acc := by
              simp [scanSetsOm, ← hbonus, hzero, happ, hlt]
            rw [hstep, ih acc hacc, hpairs]
            by_cases hpos : 0 < bonus
            · rw [if_pos ⟨hpos, happ⟩, pairsMax_cons]
              simp only
              omega
            · rw [if_neg (by omega : ¬(0 < bonus ∧
                doesSynergyOmicronApplyToCharacter s target = true))]
        · have hstep : scanSetsOm target otherId (s :: rest) acc =
              scanSetsOm target otherId rest acc := by
            simp [scanSetsOm, ← hbonus, hzero, happ]
          rw [hstep, ih acc hacc, hpairs]
          rw [if_neg (by tauto : ¬(0 < bonus ∧
            doesSynergyOmicronApplyToCharacter s target = true))]

lemma scanSetsOm_src (target : Character) (otherId : String)
    (sets : List SynergySet) :
    ∀ acc : Int × Option String, 0 ≤ acc.1 →
      scanSetsOm target otherId sets acc = acc ∨
        ∃ p ∈ omicronPairsOfSets target otherId sets,
          (scanSetsOm target otherId sets acc).1 = p.1 ∧
          (scanSetsOm target otherId sets acc).2 = some p.2 := by
  induction sets with
  | nil => intro acc _; left; rfl
  | cons s rest ih =>
      intro acc hacc
      set bonus := s.synergyEnhancementOmicron.getD 0 with hbonus
      by_cases hupd : bonus ≠ 0 ∧
          doesSynergyOmicronApplyToCharacter s target = true ∧ acc.1 < bonus
      · obtain ⟨hz, happ, hlt⟩ := hupd
        have hstep : scanSetsOm target otherId (s :: rest) acc =
            scanSetsOm target otherId rest (bonus, some otherId) := by
          simp [scanSetsOm, ← hbonus, hz, happ, hlt]
        have hpos : (0 : Int) < bonus := by omega
        have hmem : (bonus, otherId) ∈ omicronPairsOfSets target otherId (s :: rest) := by
          simp only [omicronPairsOfSets, List.filterMap_cons, ← hbonus,
            if_pos (⟨hpos, happ⟩ : 0 < bonus ∧
              doesSynergyOmicronApplyToCharacter s target = true)]
          exact List.mem_cons_self _ _
        rcases ih (bonus, some otherId) (le_of_lt hpos) with heq | ⟨p, hp, h1, h2⟩
        · right
          refine ⟨(bonus, otherId), hmem, ?_, ?_⟩ <;> rw [hstep, heq]
        · right
          refine ⟨p, ?_, by rw [hstep]; exact h1, by rw [hstep]; exact h2⟩
          simp only [omicronPairsOfSets, List.filterMap_cons] at hp ⊢
          by_cases hc : 0 < s.synergyEnhancementOmicron.getD 0 ∧
              doesSynergyOmicronApplyToCharacter s target = true
          · rw [if_pos hc]; exact List.mem_cons_of_mem _ hp
          · rw [if_neg hc]; exact hp
      · have hstep : scanSetsOm target otherId (s :: rest) acc =
            scanSetsOm target otherId rest acc := by
          simp only [scanSetsOm, ← hbonus]
          by_cases hz : bonus = 0
          · simp [hz]
          · by_cases happ : doesSynergyOmicronApplyToCharacter s target = true
            · have hnlt : ¬acc.1 < bonus := by tauto
              simp [hz, happ, hnlt]
            · simp [hz, happ]
        rcases ih acc hacc with heq | ⟨p, hp, h1, h2⟩
        · left; rw [hstep, heq]
        · right
          refine ⟨p, ?_, by rw [hstep]; exact h1, by rw [hstep]; exact h2⟩
          simp only [omicronPairsOfSets, List.filterMap_cons] at hp ⊢
          by_cases hc : 0 < s.synergyEnhancementOmicron.getD 0 ∧
              doesSynergyOmicronApplyToCharacter s target = true
          · rw [if_pos hc]; exact List.mem_cons_of_mem _ hp
          · rw [if_neg hc]; exact hp

/-- One step of the outer scan rewritten through the collected pairs of
the head character. -/
lemma omicronPairsChars_cons (env : Env) (target : Character)
    (x : Character) (rest : List Character) :
    omicronPairsChars env target (x :: rest) =
      (if hasMatchingOmicronAbilities env x.id then
        omicronPairsOfSets target x.id (x.synergySets.getD [])
      else []) ++ omicronPairsChars env target rest := rfl

lemma scanCharsOm_fst (env : Env) (target : Character)
    (chars : List Character) :
    ∀ acc : Int × Option String, 0 ≤ acc.1 →
      (scanCharsOm env target chars acc).1 =
        max acc.1 (pairsMax (omicronPairsChars env target chars)) := by
  induction chars with
  | nil =>
      intro acc hacc
      have h0 : pairsMax (omicronPairsChars env target []) = 0 := rfl
      show acc.1 = _
      omega
  | cons x rest ih =>
      intro acc hacc
      rw [omicronPairsChars_cons, pairsMax_append]
      by_cases hq : hasMatchingOmicronAbilities env x.id = true
      · rw [if_pos hq]
        match hsets : x.synergySets with
        | none =>
            have hstep : scanCharsOm env target (x :: rest) acc =
                scanCharsOm env target rest acc := by
              simp [scanCharsOm, hsets]
            have hpz : pairsMax (omicronPairsOfSets target x.id
                ((none : Option (List SynergySet)).getD [])) = 0 := rfl
            rw [hstep, ih acc hacc, hpz]
            have := pairsMax_nonneg (omicronPairsChars env target rest)
            omega
        | some sets =>
            by_cases hemp : sets.isEmpty = true
            · have hstep : scanCharsOm env target (x :: rest) acc =
                  scanCharsOm env target rest acc := by
                simp [scanCharsOm, hsets, hemp]
              have hnil : sets = [] := by
                cases sets with
                | nil => rfl
                | cons a l => simp [List.isEmpty] at hemp
              have hpz : pairsMax (omicronPairsOfSets target x.id
                  ((some sets).getD [])) = 0 := by
                rw [hnil]; rfl
              rw [hstep, ih acc hacc, hpz]
              have := pairsMax_nonneg (omicronPairsChars env target rest)
              omega
            · have hstep : scanCharsOm env target (x :: rest) acc =
                  scanCharsOm env target rest
                    (scanSetsOm target x.id sets acc) := by
                simp [scanCharsOm, hsets, hemp, hq]
              have hinner := scanSetsOm_fst target x.id sets acc hacc
              have hnn : 0 ≤ (scanSetsOm target x.id sets acc).1 := by
                rw [hinner]
                have := pairsMax_nonneg (omicronPairsOfSets target x.id sets)
                omega
              rw [hstep, ih _ hnn, hinner]
              have hgd : (some sets).getD ([] : List SynergySet) = sets := rfl
              rw [hgd]
              omega
      · have hstep : scanCharsOm env target (x :: rest) acc =
            scanCharsOm env target rest acc := by
          match hsets : x.synergySets with
          | none => simp [scanCharsOm, hsets]
          | some sets =>
              by_cases hemp : sets.isEmpty = true
              · simp [scanCharsOm, hsets, hemp]
              · simp [scanCharsOm, hsets, hemp, hq]
        rw [if_neg hq, hstep, ih acc hacc]
        have h0 : pairsMax ([] : List (Int × String)) = 0 := rfl
        omega

lemma scanCharsOm_src (env : Env) (target : Character)
    (chars : List Character) :
    ∀ acc : Int × Option String, 0 ≤ acc.1 →
      scanCharsOm env target chars acc = acc ∨
        ∃ p ∈ omicronPairsChars env target chars,
          (scanCharsOm env target chars acc).1 = p.1 ∧
          (scanCharsOm env target chars acc).2 = some p.2 := by
  induction chars with
  | nil => intro acc _; left; rfl
  | cons x rest ih =>
      intro acc hacc
      have hmemR : ∀ p ∈ omicronPairsChars env target rest,
          p ∈ omicronPairsChars env target (x :: rest) := by
        intro p hp
        rw [omicronPairsChars_cons]
        exact List.mem_append_right _ hp
      by_cases hactive : hasMatchingOmicronAbilities env x.id = true ∧
          ∃ sets, x.synergySets = some sets ∧ sets.isEmpty = false
      · obtain ⟨hq, sets, hsets, hemp⟩ := hactive
        have hstep : scanCharsOm env target (x :: rest) acc =
            scanCharsOm env target rest (scanSetsOm target x.id sets acc) := by
          simp [scanCharsOm, hsets, hemp, hq]
        have hnn : 0 ≤ (scanSetsOm target x.id sets acc).1 := by
          rw [scanSetsOm_fst target x.id sets acc hacc]
          have := pairsMax_nonneg (omicronPairsOfSets target x.id sets)
          omega
        have hmemX : ∀ p ∈ omicronPairsOfSets target x.id sets,
            p ∈ omicronPairsChars env target (x :: rest) := by
          intro p hp
          rw [omicronPairsChars_cons, if_pos hq, hsets]
          exact List.mem_append_left _ hp
        have hinner := scanSetsOm_src target x.id sets acc hacc
        rcases ih (scanSetsOm target x.id sets acc) hnn with
          houter | ⟨p, hp, h1, h2⟩
        · rcases hinner with hieq | ⟨p, hp, h1, h2⟩
          · left; rw [hstep, houter, hieq]
          · right
            exact ⟨p, hmemX p hp, by rw [hstep, houter]; exact h1,
              by rw [hstep, houter]; exact h2⟩
        · right
          exact ⟨p, hmemR p hp, by rw [hstep]; exact h1,
            by rw [hstep]; exact h2⟩
      · have hstep : scanCharsOm env target (x :: rest) acc =
            scanCharsOm env target rest acc := by
          match hsets : x.synergySets with
          | none => simp [scanCharsOm, hsets]
          | some sets =>
              by_cases hemp : sets.isEmpty = true
              · simp [scanCharsOm, hsets, hemp]
              · have hq : ¬hasMatchingOmicronAbilities env x.id = true := by
                  intro hq
                  exact hactive ⟨hq, sets, hsets, by
                    cases h : sets.isEmpty
                    · rfl
                    · exact absurd h hemp⟩
                simp [scanCharsOm, hsets, hemp, hq]
        rcases ih acc hacc with houter | ⟨p, hp, h1, h2⟩
        · left; rw [hstep, houter]
        · right
          exact ⟨p, hmemR p hp, by rw [hstep]; exact h1,
            by rw [hstep]; exact h2⟩

/-- Value of the external omicron scan: the maximum collected bonus. -/
lemma externalOmicronScan_fst (env : Env) (target : Character) :
    (externalOmicronScan env target).1 = pairsMax (omicronPairs env target) := by
  have h := scanCharsOm_fst env target env.characterData (0, none) (le_refl 0)
  have := pairsMax_nonneg (omicronPairsChars env target env.characterData)
  unfold externalOmicronScan omicronPairs
  omega

lemma externalOmicronScan_nonneg (env : Env) (target : Character) :
    0 ≤ (externalOmicronScan env target).1 := by
  rw [externalOmicronScan_fst]
  exact pairsMax_nonneg _

/-- When the scan found a positive bonus, the recorded source is the id
of a collected granting pair attaining the maximum. -/
lemma externalOmicronScan_src_of_pos (env : Env) (target : Character)
    (hpos : 0 < (externalOmicronScan env target).1) :
    ∃ p ∈ omicronPairs env target,
      p.1 = (externalOmicronScan env target).1 ∧
      (externalOmicronScan env target).2 = some p.2 := by
  rcases scanCharsOm_src env target env.characterData (0, none) (le_refl 0) with
    heq | ⟨p, hp, h1, h2⟩
  · exfalso
    have : (externalOmicronScan env target).1 = 0 := by
      unfold externalOmicronScan
      rw [heq]
    omega
  · exact ⟨p, hp, h1.symm, h2⟩

/-- When the scan found nothing, no source is recorded. -/
lemma externalOmicronScan_snd_of_zero (env : Env) (target : Character)
    (hz : (externalOmicronScan env target).1 = 0) :
    (externalOmicronScan env target).2 = none := by
  rcases scanCharsOm_src env target env.characterData (0, none) (le_refl 0) with
    heq | ⟨p, hp, h1, h2⟩
  · unfold externalOmicronScan
    rw [heq]
  · exfalso
    have hppos := omicronPairsChars_pos env target env.characterData p hp
    unfold externalOmicronScan at hz
    omega

lemma calculateFinalTier_applied (env : Env) (character : Character) :
    (calculateFinalTier env character).appliedOmicronBonus =
      (appliedOmicronOf env character).1 := rfl

lemma calculateFinalTier_source (env : Env) (character : Character) :
    (calculateFinalTier env character).omicronSource =
      (appliedOmicronOf env character).2 := rfl

/-- With omicron inclusion on, the applied bonus is the pointwise maximum
of the personal and the external component, and the provenance follows
the `personalOmicron > 0 && personalOmicron >= bestSynergyOmicronBonus`
decision. -/
lemma appliedOmicronOf_spec (env : Env) (character : Character)
    (h : env.includeOmicron = true) :
    (appliedOmicronOf env character).1 =
      max (personalOmicron env character) (externalOmicronScan env character).1 ∧
    ((0 < personalOmicron env character ∧
        (externalOmicronScan env character).1 ≤ personalOmicron env character) →
      (appliedOmicronOf env character).2 = OmicronSource.character) ∧
    (¬(0 < personalOmicron env character ∧
        (externalOmicronScan env character).1 ≤ personalOmicron env character) →
      (appliedOmicronOf env character).2 =
        srcOf (externalOmicronScan env character).2) := by
  have hnn := externalOmicronScan_nonneg env character
  unfold appliedOmicronOf
  rw [h]
  simp only [if_true]
  by_cases h1 : 0 < personalOmicron env character ∧
      (externalOmicronScan env character).1 ≤ personalOmicron env character
  · rw [if_pos h1]
    refine ⟨?_, fun _ => rfl, fun hc => absurd h1 hc⟩
    simp only
    omega
  · rw [if_neg h1]
    by_cases h2 : 0 < (externalOmicronScan env character).1
    · rw [if_pos h2]
      refine ⟨?_, fun hc => absurd hc h1, fun _ => rfl⟩
      simp only
      omega
    · rw [if_neg h2]
      have hz : (externalOmicronScan env character).1 = 0 := by omega
      have hsnd := externalOmicronScan_snd_of_zero env character hz
      refine ⟨?_, fun hc => absurd hc h1, fun _ => ?_⟩
      · simp only
        omega
      · rw [hsnd]
        rfl

/-- C1: with omicron inclusion enabled, the omicron bonus applied by
`calculateFinalTier` equals the maximum of the personal omicron component
and the best externally granted synergy-omicron component, is never their
sum when both are positive, and the recorded provenance is the character
itself when the personal component is positive and at least as large as
the external one, otherwise the tracked granting character. -/
theorem omicron_bonus_is_max_not_sum (env : Env) (character : Character)
    (h : env.includeOmicron = true) :
    (calculateFinalTier env character).appliedOmicronBonus =
      max (personalOmicron env character) (externalOmicronScan env character).1 ∧
    (0 < personalOmicron env character →
      0 < (externalOmicronScan env character).1 →
      (calculateFinalTier env character).appliedOmicronBonus ≠
        personalOmicron env character + (externalOmicronScan env character).1) ∧
    ((0 < personalOmicron env character ∧
        (externalOmicronScan env character).1 ≤ personalOmicron env character) →
      (calculateFinalTier env character).omicronSource =
        OmicronSource.character) ∧
    (¬(0 < personalOmicron env character ∧
        (externalOmicronScan env character).1 ≤ personalOmicron env character) →
      (calculateFinalTier env character).omicronSource =
        srcOf (externalOmicronScan env character).2) := by
  obtain ⟨hmax, hself, hother⟩ := appliedOmicronOf_spec env character h
  rw [calculateFinalTier_applied, calculateFinalTier_source]
  refine ⟨hmax, ?_, hself, hother⟩
  intro hp he
  rw [hmax]
  omega

/-- A sample environment with both checkboxes on, no reference data and
an empty dataset. -/
def envEmpty : Env :=
  { characterData := []
    includeOmicron := true
    includeSynergy := true
    selectedOmicronModeSet := []
    omicronAbilityIndex := fun _ => none }

/-- A bare character record with only an id and a base tier. -/
def bareChar (i : String) (bt : Int) : Character :=
  ⟨i, bt, none, none, none, none, none, none, none, none, none⟩

theorem omicron_bonus_is_max_not_sum_witness :
    (calculateFinalTier envEmpty (bareChar "A" 5)).appliedOmicronBonus =
      max (personalOmicron envEmpty (bareChar "A" 5))
        (externalOmicronScan envEmpty (bareChar "A" 5)).1 ∧
    (0 < personalOmicron envEmpty (bareChar "A" 5) →
      0 < (externalOmicronScan envEmpty (bareChar "A" 5)).1 →
      (calculateFinalTier envEmpty (bareChar "A" 5)).appliedOmicronBonus ≠
        personalOmicron envEmpty (bareChar "A" 5) +
          (externalOmicronScan envEmpty (bareChar "A" 5)).1) ∧
    ((0 < personalOmicron envEmpty (bareChar "A" 5) ∧
        (externalOmicronScan envEmpty (bareChar "A" 5)).1 ≤
          personalOmicron envEmpty (bareChar "A" 5)) →
      (calculateFinalTier envEmpty (bareChar "A" 5)).omicronSource =
        OmicronSource.character) ∧
    (¬(0 < personalOmicron envEmpty (bareChar "A" 5) ∧
        (externalOmicronScan envEmpty (bareChar "A" 5)).1 ≤
          personalOmicron envEmpty (bareChar "A" 5)) →
      (calculateFinalTier envEmpty (bareChar "A" 5)).omicronSource =
        srcOf (externalOmicronScan envEmpty (bareChar "A" 5)).2) :=
  omicron_bonus_is_max_not_sum envEmpty (bareChar "A" 5) rfl

/-- C4: the personal omicron component is `omicronBoost` when the
character qualifies for omicron and the boost is present, 1 when it
qualifies and the boost is absent, and 0 when it does not qualify. -/
theorem personal_omicron_component (env : Env) (c : Character) :
    (∀ b : Int, c.omicronBoost = some b →
      hasMatchingOmicronAbilities env c.id = true →
      personalOmicron env c = b) ∧
    (c.omicronBoost = none →
      hasMatchingOmicronAbilities env c.id = true →
      personalOmicron env c = 1) ∧
    (hasMatchingOmicronAbilities env c.id = false →
      personalOmicron env c = 0) := by
  refine ⟨?_, ?_, ?_⟩
  · intro b hb hq
    unfold personalOmicron
    rw [hb, hq]
    simp
  · intro hb hq
    unfold personalOmicron
    rw [hb, hq]
    simp
  · intro hq
    unfold personalOmicron
    match h : c.omicronBoost with
    | some b => rw [hq]; simp
    | none => rw [hq]; simp

/-- A character that carries omicron abilities of mode `tw` in the sample
reference data of `envQual`. -/
def charX : Character :=
  ⟨"X", 8, some 3, none, none, none, none, none, none, none, none⟩

/-- A sample environment whose reference data reports omicron abilities
of mode `tw` for the character `X` only. -/
def envQual : Env :=
  { characterData := [charX]
    includeOmicron := true
    includeSynergy := true
    selectedOmicronModeSet := ["tw"]
    omicronAbilityIndex := fun i => if i == "X" then some ["tw"] else none }

theorem personal_omicron_component_witness :
    personalOmicron envQual charX = 3 :=
  (personal_omicron_component envQual charX).1 3 rfl (by decide)

/-- C5: a synergy set's omicron bonus applies to a candidate exactly when
the candidate's id is in the set's explicit `characters` list; a
category-only match never grants it. -/
theorem omicron_match_requires_explicit_id (synergySet : SynergySet)
    (character : Character) :
    (doesSynergyOmicronApplyToCharacter synergySet character = true ↔
      character.id ∈ synergySet.characters.getD []) ∧
    (doesSynergySetApplyToCharacter synergySet character = true →
      character.id ∉ synergySet.characters.getD [] →
      doesSynergyOmicronApplyToCharacter synergySet character = false) := by
  have hiff : doesSynergyOmicronApplyToCharacter synergySet character = true ↔
      character.id ∈ synergySet.characters.getD [] := by
    unfold doesSynergyOmicronApplyToCharacter
    match h : synergySet.characters with
    | none => simp
    | some cs => simp
  refine ⟨hiff, ?_⟩
  intro _ hnot
  cases hb : doesSynergyOmicronApplyToCharacter synergySet character
  · rfl
  · exact absurd (hiff.mp hb) hnot

/-- C6: a synergy set's standard bonus applies to a candidate exactly
when the candidate's id is in the explicit `characters` list, or some
category definition matches (every include tag carried, no exclude tag
carried). -/
theorem standard_match_iff (synergySet : SynergySet) (character : Character) :
    doesSynergySetApplyToCharacter synergySet character = true ↔
      (character.id ∈ synergySet.characters.getD [] ∨
        ∃ catDef ∈ synergySet.categoryDefinitions.getD [],
          (∀ tag ∈ catDef.incl.getD [], tag ∈ character.categories.getD []) ∧
          (∀ tag ∈ catDef.excl.getD [], tag ∉ character.categories.getD [])) := by
  unfold doesSynergySetApplyToCharacter
  by_cases hc : (match synergySet.characters with
      | none => false
      | some cs => cs.contains character.id) = true
  · rw [if_pos hc]
    have hmem : character.id ∈ synergySet.characters.getD [] := by
      match h : synergySet.characters with
      | none => rw [h] at hc; simp at hc
      | some cs => rw [h] at hc; simpa using hc
    simp [hmem]
  · rw [if_neg hc]
    have hnmem : character.id ∉ synergySet.characters.getD [] := by
      intro hmem
      apply hc
      match h : synergySet.characters with
      | none => rw [h] at hmem; simp at hmem
      | some cs =>
          rw [h] at hmem
          simpa using hmem
    match h : synergySet.categoryDefinitions with
    | none => simp [hnmem]
    | some defs =>
        by_cases hemp : defs.isEmpty = true
        · have : defs = [] := by
            cases defs with
            | nil => rfl
            | cons a l => simp [List.isEmpty] at hemp
          subst this
          simp [hnmem, hemp]
        · dsimp only
          rw [if_neg hemp]
          simp only [hnmem, false_or, Option.getD_some, List.any_eq_true,
            Bool.and_eq_true, Bool.not_eq_true', List.all_eq_true,
            List.any_eq_false]
          constructor
          · rintro ⟨catDef, hcd, hall, hnone⟩
            refine ⟨catDef, hcd, fun tag htag => ?_, fun tag htag hmem => ?_⟩
            · have := hall tag htag
              simpa using this
            · have := hnone tag htag
              simp [hmem] at this
          · rintro ⟨catDef, hcd, hall, hnone⟩
            refine ⟨catDef, hcd, fun tag htag => ?_, fun tag htag => ?_⟩
            · simpa using hall tag htag
            · have := hnone tag htag
              simpa using this

/-- A synergy set on the witness character `T` that names `T` itself as
explicit beneficiary of its omicron enhancement. -/
def selfGrantSet : SynergySet :=
  ⟨none, some 5, some ["T"], none, none⟩

/-- A character granting itself a synergy omicron through
`selfGrantSet`; its own `omicronBoost` is the explicit value 0. -/
def charT : Character :=
  ⟨"T", 10, some 0, none, none, none, none, none, none, none,
    some [selfGrantSet]⟩

/-- Environment whose dataset holds only `charT`, with reference data
reporting a matching omicron ability for `T`. -/
def envSelf : Env :=
  { characterData := [charT]
    includeOmicron := true
    includeSynergy := true
    selectedOmicronModeSet := ["m"]
    omicronAbilityIndex := fun i => if i == "T" then some ["m"] else none }

/-- C3 counterexample: the scan in `calculateFinalTier` walks the whole
dataset without excluding the target, so a character whose own synergy
set lists itself receives an "externally" granted omicron from itself,
while the claim's others-only collection is empty.  The applied bonus is
5 (source `T`) although max(personal, others-only external) is 0. -/
theorem external_scan_excludes_target_refuted :
    (externalOmicronScan envSelf charT).1 = 5 ∧
    pairsMax (omicronPairsOthers envSelf charT) = 0 ∧
    (calculateFinalTier envSelf charT).appliedOmicronBonus = 5 ∧
    (calculateFinalTier envSelf charT).omicronSource = OmicronSource.id "T" ∧
    max (personalOmicron envSelf charT)
      (pairsMax (omicronPairsOthers envSelf charT)) = 0 := by
  refine ⟨rfl, rfl, rfl, rfl, rfl⟩

/-- C3 amended: the externally granted omicron component is computed by
scanning every character of the dataset (the target itself included) that
qualifies for omicron, collecting the positive
`synergyEnhancementOmicron` values of its synergy sets that explicitly
list the target, and taking the maximum of the collected values (0 when
none), recording a granting character that produced the maximum. -/
theorem external_omicron_scan_characterization (env : Env)
    (target : Character) :
    (externalOmicronScan env target).1 = pairsMax (omicronPairs env target) ∧
    ((externalOmicronScan env target).1 = 0 →
      (externalOmicronScan env target).2 = none) ∧
    (0 < (externalOmicronScan env target).1 →
      ∃ p ∈ omicronPairs env target,
        p.1 = (externalOmicronScan env target).1 ∧
        (externalOmicronScan env target).2 = some p.2) :=
  ⟨externalOmicronScan_fst env target,
    externalOmicronScan_snd_of_zero env target,
    externalOmicronScan_src_of_pos env target⟩

theorem external_omicron_scan_characterization_witness :
    ∃ p ∈ omicronPairs envSelf charT,
      p.1 = (externalOmicronScan envSelf charT).1 ∧
      (externalOmicronScan envSelf charT).2 = some p.2 :=
  (external_omicron_scan_characterization envSelf charT).2.2 (by decide)

/-- A synergy set matching purely through a category definition. -/
def categoryOnlySet : SynergySet :=
  ⟨some 2, none, none, none, some [⟨some ["Sith"], none, some 2⟩]⟩

/-- A candidate carrying the `Sith` tag, not listed explicitly. -/
def charSith : Character :=
  ⟨"S", 7, none, none, none, none, none, none, none, some ["Sith"], none⟩

theorem omicron_match_requires_explicit_id_witness :
    doesSynergyOmicronApplyToCharacter categoryOnlySet charSith = false :=
  (omicron_match_requires_explicit_id categoryOnlySet charSith).2
    (by decide) (by decide)

/-! ### Standard synergy component -/

/-- Spec §4.3 Step 4: the maximum `synergyEnhancement` strictly greater
than 0 among a list of synergy sets, default 0 when no set qualifies. -/
def specMaxSets : List SynergySet → Int
  | [] => 0
  | s :: rest =>
      if 0 < enhOf s then max (enhOf s) (specMaxSets rest)
      else specMaxSets rest

/-- `bestSynergy` as the spec words it, read off the target's own sets. -/
def bestSynergySpec (c : Character) : Int :=
  specMaxSets (c.synergySets.getD [])

lemma specMaxSets_nonneg (l : List SynergySet) : 0 ≤ specMaxSets l := by
  induction l with
  | nil => simp [specMaxSets]
  | cons s rest ih =>
      simp only [specMaxSets]
      by_cases h : 0 < enhOf s
      · rw [if_pos h]; omega
      · rw [if_neg h]; exact ih

/-- The enhancement carried by an optional best entry, 0 when absent. -/
def entryVal : Option SynergyTierEntry → Int
  | none => 0
  | some b => b.synergyEnhancement

/-- Shape invariant of the `bestStandard` accumulator of
`calculateSynergyTiers`. -/
def StdInv (c : Character) (o : Option SynergyTierEntry) : Prop :=
  ∀ b, o = some b →
    b.finalTier = c.baseTier - b.synergyEnhancement ∧ 0 < b.synergyEnhancement

/-- Shape invariant of the `bestOmicron` accumulator of
`calculateSynergyTiers`. -/
def OmInv (c : Character) (ob : Int) (o : Option SynergyTierEntry) : Prop :=
  ∀ b, o = some b →
    b.finalTier = c.baseTier - ob - b.synergyEnhancement ∧
      0 < b.synergyEnhancement

lemma entryVal_nonneg_of_stdInv {c : Character} {o : Option SynergyTierEntry}
    (h : StdInv c o) : 0 ≤ entryVal o := by
  match o with
  | none => simp [entryVal]
  | some b => have := (h b rfl).2; simp only [entryVal]; omega

lemma entryVal_nonneg_of_omInv {c : Character} {ob : Int}
    {o : Option SynergyTierEntry} (h : OmInv c ob o) : 0 ≤ entryVal o := by
  match o with
  | none => simp [entryVal]
  | some b => have := (h b rfl).2; simp only [entryVal]; omega

/-- The `bestStandard` update keeps the invariant and tracks the maximum
positive enhancement. -/
lemma updateStd_spec (c : Character) (bs : Option SynergyTierEntry)
    (s : SynergySet) (i : Nat) (hbs : StdInv c bs) :
    StdInv c (updateStd c bs s i) ∧
    entryVal (updateStd c bs s i) =
      (if 0 < enhOf s then max (entryVal bs) (enhOf s) else entryVal bs) := by
  by_cases hpos : 0 < enhOf s
  · unfold updateStd
    rw [if_pos hpos, if_pos hpos]
    cases hb : bs with
    | none =>
        dsimp only
        refine ⟨?_, ?_⟩
        · intro b hbeq
          cases hbeq
          exact ⟨rfl, hpos⟩
        · simp only [entryVal]
          omega
    | some b =>
        rw [hb] at hbs
        have hbprops := hbs b rfl
        dsimp only
        by_cases hcmp : c.baseTier - enhOf s < b.finalTier
        · rw [if_pos hcmp]
          refine ⟨?_, ?_⟩
          · intro b' hbeq
            cases hbeq
            exact ⟨rfl, hpos⟩
          · have : b.synergyEnhancement < enhOf s := by omega
            simp only [entryVal]
            omega
        · rw [if_neg hcmp]
          refine ⟨?_, ?_⟩
          · intro b' hbeq
            cases hbeq
            exact hbprops
          · have : enhOf s ≤ b.synergyEnhancement := by omega
            simp only [entryVal]
            omega
  · unfold updateStd
    rw [if_neg hpos, if_neg hpos]
    exact ⟨hbs, rfl⟩

/-- The `bestOmicron` update keeps the invariant and tracks the maximum
positive enhancement whenever the own boost is positive. -/
lemma updateOm_spec (c : Character) (ob : Int) (bo : Option SynergyTierEntry)
    (s : SynergySet) (i : Nat) (hbo : OmInv c ob bo) :
    OmInv c ob (updateOm c ob bo s i) ∧
    entryVal (updateOm c ob bo s i) =
      (if 0 < ob ∧ 0 < enhOf s then max (entryVal bo) (enhOf s)
       else entryVal bo) := by
  by_cases hpos : 0 < ob ∧ 0 < enhOf s
  · unfold updateOm
    rw [if_pos hpos, if_pos hpos]
    cases hb : bo with
    | none =>
        dsimp only
        refine ⟨?_, ?_⟩
        · intro b hbeq
          cases hbeq
          exact ⟨rfl, hpos.2⟩
        · simp only [entryVal]
          omega
    | some b =>
        rw [hb] at hbo
        have hbprops := hbo b rfl
        dsimp only
        by_cases hcmp : c.baseTier - ob - enhOf s < b.finalTier
        · rw [if_pos hcmp]
          refine ⟨?_, ?_⟩
          · intro b' hbeq
            cases hbeq
            exact ⟨rfl, hpos.2⟩
          · have : b.synergyEnhancement < enhOf s := by omega
            simp only [entryVal]
            omega
        · rw [if_neg hcmp]
          refine ⟨?_, ?_⟩
          · intro b' hbeq
            cases hbeq
            exact hbprops
          · have : enhOf s ≤ b.synergyEnhancement := by omega
            simp only [entryVal]
            omega
  · unfold updateOm
    rw [if_neg hpos, if_neg hpos]
    exact ⟨hbo, rfl⟩

/-- Net effect of the `forEach` loop of `calculateSynergyTiers` on both
accumulators: the best standard entry tracks the maximum positive
enhancement seen, and the best omicron entry does the same whenever the
character's own `omicronBoost` is positive. -/
lemma synergyTiersLoop_spec (c : Character) (ob : Int)
    (sets : List SynergySet) :
    ∀ (i : Nat) (bs bo : Option SynergyTierEntry),
      StdInv c bs → OmInv c ob bo →
      StdInv c (synergyTiersLoop c ob sets i (bs, bo)).1 ∧
      OmInv c ob (synergyTiersLoop c ob sets i (bs, bo)).2 ∧
      entryVal (synergyTiersLoop c ob sets i (bs, bo)).1 =
        max (entryVal bs) (specMaxSets sets) ∧
      entryVal (synergyTiersLoop c ob sets i (bs, bo)).2 =
        (if 0 < ob then max (entryVal bo) (specMaxSets sets)
         else entryVal bo) := by
  induction sets with
  | nil =>
      intro i bs bo hbs hbo
      have h1 := entryVal_nonneg_of_stdInv hbs
      have h2 := entryVal_nonneg_of_omInv hbo
      refine ⟨hbs, hbo, ?_, ?_⟩
      · show entryVal bs = max (entryVal bs) (specMaxSets [])
        simp only [specMaxSets]
        omega
      · show entryVal bo = _
        simp only [specMaxSets]
        by_cases h : 0 < ob
        · rw [if_pos h]; omega
        · rw [if_neg h]
  | cons s rest ih =>
      intro i bs bo hbs hbo
      have hstep : synergyTiersLoop c ob (s :: rest) i (bs, bo) =
          synergyTiersLoop c ob rest (i + 1)
            (updateStd c bs s i, updateOm c ob bo s i) := rfl
      obtain ⟨hbsI, hbsV⟩ := updateStd_spec c bs s i hbs
      obtain ⟨hboI, hboV⟩ := updateOm_spec c ob bo s i hbo
      obtain ⟨r1, r2, r3, r4⟩ :=
        ih (i + 1) (updateStd c bs s i) (updateOm c ob bo s i) hbsI hboI
      rw [hstep]
      have hm : specMaxSets (s :: rest) =
          (if 0 < enhOf s then max (enhOf s) (specMaxSets rest)
           else specMaxSets rest) := rfl
      refine ⟨r1, r2, ?_, ?_⟩
      · rw [r3, hbsV, hm]
        by_cases hpos : 0 < enhOf s
        · rw [if_pos hpos, if_pos hpos]
          omega
        · rw [if_neg hpos, if_neg hpos]
      · rw [r4, hboV, hm]
        by_cases hob : 0 < ob
        · rw [if_pos hob, if_pos hob]
          by_cases hpos : 0 < enhOf s
          · rw [if_pos (⟨hob, hpos⟩ : 0 < ob ∧ 0 < enhOf s), if_pos hpos]
            omega
          · rw [if_neg (by tauto : ¬(0 < ob ∧ 0 < enhOf s)), if_neg hpos]
        · rw [if_neg hob, if_neg hob,
            if_neg (by tauto : ¬(0 < ob ∧ 0 < enhOf s))]

/-- `calculateSynergyTiers` summarized: the best standard entry carries
exactly the maximum positive own enhancement, the best omicron entry the
same when the own `omicronBoost` is positive, both satisfying the shape
invariants. -/
lemma calculateSynergyTiers_none (c : Character) (h : c.synergySets = none) :
    calculateSynergyTiers c = (none, none) := by
  unfold calculateSynergyTiers
  rw [h]

lemma calculateSynergyTiers_some (c : Character) (sets : List SynergySet)
    (h : c.synergySets = some sets) :
    calculateSynergyTiers c =
      (if sets.isEmpty then (none, none)
       else synergyTiersLoop c (c.omicronBoost.getD 0) sets 0 (none, none)) := by
  unfold calculateSynergyTiers
  rw [h]

lemma calculateSynergyTiers_spec (c : Character) :
    StdInv c (calculateSynergyTiers c).1 ∧
    OmInv c (c.omicronBoost.getD 0) (calculateSynergyTiers c).2 ∧
    entryVal (calculateSynergyTiers c).1 = bestSynergySpec c ∧
    entryVal (calculateSynergyTiers c).2 =
      (if 0 < c.omicronBoost.getD 0 then bestSynergySpec c else 0) := by
  cases h : c.synergySets with
  | none =>
      rw [calculateSynergyTiers_none c h]
      unfold bestSynergySpec
      rw [h]
      refine ⟨?_, ?_, ?_, ?_⟩
      · intro b hb
        cases hb
      · intro b hb
        cases hb
      · show entryVal none = specMaxSets (Option.getD none [])
        simp [entryVal, specMaxSets]
      · show entryVal none =
          (if 0 < c.omicronBoost.getD 0 then specMaxSets (Option.getD none [])
           else 0)
        simp [entryVal, specMaxSets]
  | some sets =>
      rw [calculateSynergyTiers_some c sets h]
      unfold bestSynergySpec
      rw [h]
      by_cases hemp : sets.isEmpty = true
      · have hnil : sets = [] := by
          cases sets with
          | nil => rfl
          | cons a l => simp [List.isEmpty] at hemp
        subst hnil
        rw [if_pos List.isEmpty_nil]
        refine ⟨?_, ?_, ?_, ?_⟩
        · intro b hb
          cases hb
        · intro b hb
          cases hb
        · show entryVal none = specMaxSets (Option.getD (some []) [])
          simp [entryVal, specMaxSets]
        · show entryVal none =
            (if 0 < c.omicronBoost.getD 0 then
              specMaxSets (Option.getD (some []) []) else 0)
          simp [entryVal, specMaxSets]
      · rw [if_neg hemp]
        have hstd : StdInv c (none : Option SynergyTierEntry) :=
          fun b hb => by cases hb
        have hom : OmInv c (c.omicronBoost.getD 0)
            (none : Option SynergyTierEntry) := fun b hb => by cases hb
        obtain ⟨r1, r2, r3, r4⟩ :=
          synergyTiersLoop_spec c (c.omicronBoost.getD 0) sets 0 none none
            hstd hom
        have hM := specMaxSets_nonneg sets
        refine ⟨r1, r2, ?_, ?_⟩
        · rw [r3]
          show max (entryVal none) _ = _
          simp only [entryVal, Option.getD_some]
          omega
        · rw [r4]
          by_cases hob : 0 < c.omicronBoost.getD 0
          · rw [if_pos hob, if_pos hob]
            show max (entryVal none) _ = _
            simp only [entryVal, Option.getD_some]
            omega
          · rw [if_neg hob, if_neg hob]
            rfl

/-- The `finalTier` field of `calculateFinalTier`, written out. -/
lemma calculateFinalTier_finalTier (env : Env) (character : Character) :
    (calculateFinalTier env character).finalTier =
      max 1 (min 19 (
        if env.includeSynergy ∧ ¬(character.synergySets.getD []).isEmpty = true
        then
          match (if env.includeOmicron ∧
              (calculateSynergyTiers character).2.isSome = true then
              (calculateSynergyTiers character).2
            else if (calculateSynergyTiers character).1.isSome then
              (calculateSynergyTiers character).1
            else none) with
          | some bs =>
              character.baseTier - (appliedOmicronOf env character).1 -
                bs.synergyEnhancement
          | none => character.baseTier - (appliedOmicronOf env character).1
        else character.baseTier - (appliedOmicronOf env character).1)) := rfl

/-- C2: with synergy and omicron inclusion enabled, the final tier is
`clamp(baseTier − appliedOmicron − bestSynergy, 1, 19)` where
`bestSynergy` is the maximum positive own `synergyEnhancement`
(default 0), and the result always lies in `[1, 19]`. -/
theorem final_tier_clamped_combination (env : Env) (character : Character)
    (hs : env.includeSynergy = true) (ho : env.includeOmicron = true) :
    (calculateFinalTier env character).finalTier =
      max 1 (min 19 (character.baseTier -
        (calculateFinalTier env character).appliedOmicronBonus -
        bestSynergySpec character)) ∧
    1 ≤ (calculateFinalTier env character).finalTier ∧
    (calculateFinalTier env character).finalTier ≤ 19 := by
  obtain ⟨i1, i2, v1, v2⟩ := calculateSynergyTiers_spec character
  have hinner :
      (if env.includeSynergy ∧ ¬(character.synergySets.getD []).isEmpty = true
       then
        match (if env.includeOmicron ∧
            (calculateSynergyTiers character).2.isSome = true then
            (calculateSynergyTiers character).2
          else if (calculateSynergyTiers character).1.isSome then
            (calculateSynergyTiers character).1
          else none) with
        | some bs =>
            character.baseTier - (appliedOmicronOf env character).1 -
              bs.synergyEnhancement
        | none => character.baseTier - (appliedOmicronOf env character).1
       else character.baseTier - (appliedOmicronOf env character).1) =
      character.baseTier - (appliedOmicronOf env character).1 -
        bestSynergySpec character := by
    by_cases hemp : (character.synergySets.getD []).isEmpty = true
    · rw [if_neg (by tauto : ¬(env.includeSynergy = true ∧
        ¬(character.synergySets.getD []).isEmpty = true))]
      have hspec : bestSynergySpec character = 0 := by
        unfold bestSynergySpec
        cases hl : character.synergySets.getD [] with
        | nil => rfl
        | cons a l => rw [hl] at hemp; simp at hemp
      rw [hspec]
      omega
    · rw [if_pos ⟨hs, hemp⟩]
      cases h2 : (calculateSynergyTiers character).2 with
      | some b2 =>
          rw [if_pos ⟨ho, rfl⟩]
          show character.baseTier - (appliedOmicronOf env character).1 -
              b2.synergyEnhancement = _
          obtain ⟨hb2a, hb2b⟩ := i2 b2 h2
          rw [h2] at v2
          have hval : entryVal (some b2) = b2.synergyEnhancement := rfl
          rw [hval] at v2
          by_cases hob : 0 < character.omicronBoost.getD 0
          · rw [if_pos hob] at v2
            rw [v2]
          · rw [if_neg hob] at v2
            exact absurd v2 (by omega)
      | none =>
          rw [if_neg (by simp : ¬(env.includeOmicron = true ∧
            (none : Option SynergyTierEntry).isSome = true))]
          cases h1 : (calculateSynergyTiers character).1 with
          | some b1 =>
              have hsel : (if (some b1 : Option SynergyTierEntry).isSome = true
                  then (some b1 : Option SynergyTierEntry) else none) =
                  some b1 := by simp
              rw [hsel]
              show character.baseTier - (appliedOmicronOf env character).1 -
                  b1.synergyEnhancement = _
              rw [h1] at v1
              have hval : entryVal (some b1) = b1.synergyEnhancement := rfl
              rw [hval] at v1
              rw [v1]
          | none =>
              have hsel : (if (none : Option SynergyTierEntry).isSome = true
                  then (none : Option SynergyTierEntry) else none) = none := by
                simp
              rw [hsel]
              show character.baseTier - (appliedOmicronOf env character).1 = _
              rw [h1] at v1
              have hz : bestSynergySpec character = 0 := by
                rw [← v1]; rfl
              rw [hz]
              omega
  rw [calculateFinalTier_finalTier, calculateFinalTier_applied, hinner]
  refine ⟨rfl, ?_, ?_⟩ <;> omega

theorem final_tier_clamped_combination_witness :
    (calculateFinalTier envEmpty (bareChar "A" 5)).finalTier =
      max 1 (min 19 ((bareChar "A" 5).baseTier -
        (calculateFinalTier envEmpty (bareChar "A" 5)).appliedOmicronBonus -
        bestSynergySpec (bareChar "A" 5))) ∧
    1 ≤ (calculateFinalTier envEmpty (bareChar "A" 5)).finalTier ∧
    (calculateFinalTier envEmpty (bareChar "A" 5)).finalTier ≤ 19 :=
  final_tier_clamped_combination envEmpty (bareChar "A" 5) rfl rfl

/-! ### Draft session: validation and commit (`updateCharacter`) -/

/-- The draft snapshot built by `initializeDraft` and edited by the
form; same optional fields as a character plus the `characterId`. -/
structure Draft where
  characterId : String
  baseTier : Int
  omicronBoost : Option Int
  ignoreRequirements : Option IgnoreReq
  ignoreSynergyRequirements : Option IgnoreReq
  requiredZetas : Option (List String)
  requiresAllZetas : Option Bool
  requiredOmicrons : Option (List String)
  requiresAllOmicrons : Option Bool
  categories : Option (List String)
  synergySets : Option (List SynergySet)
deriving DecidableEq, Repr

/-- The per-set validation block of `updateCharacter` for synergy set
number `i` (0-based; messages are 1-based as in the source). -/
def checkSet (set : SynergySet) (i : Nat) : Option String :=
  if (match set.synergyEnhancement with
      | some v => decide (v < 0) || decide (10 < v)
      | none => false) = true then
    some ("Synergy Set #" ++ toString (i + 1) ++
      ": Synergy enhancement must be between 0 and 10")
  else if (match set.synergyEnhancementOmicron with
      | some v => decide (v < 0) || decide (10 < v)
      | none => false) = true then
    some ("Synergy Set #" ++ toString (i + 1) ++
      ": Omicron Boost must be between 0 and 10")
  else if getSynergySlotUsage set < 1 ∨ 4 < getSynergySlotUsage set then
    some ("Synergy Set #" ++ toString (i + 1) ++
      ": Must reference between 1 and 4 total teammates (found: " ++
      toString (getSynergySlotUsage set) ++ ").\n\nCharacters: " ++
      toString (set.characters.getD []).length ++
      "\nCategory matches required: " ++
      toString (getSynergySlotUsage set -
        ((set.characters.getD []).length : Int)) ++
      "\n\nPlease adjust the synergy set before updating.")
  else none

/-- The `for` loop over `currentDraft.synergySets` in `updateCharacter`,
returning the first failure message. -/
def validateSets : List SynergySet → Nat → Option String
  | [], _ => none
  | set :: rest, i =>
      match checkSet set i with
      | some msg => some msg
      | none => validateSets rest (i + 1)

/-- The whole validation prefix of `updateCharacter`: base tier range,
omicron boost range, then the per-set checks. -/
def validateDraft (d : Draft) : Option String :=
  if d.baseTier < 1 ∨ 19 < d.baseTier then
    some "Base tier must be between 1 and 19"
  else if (match d.omicronBoost with
      | some v => decide (v < 0) || decide (10 < v)
      | none => false) = true then
    some "Omicron Boost must be between 0 and 10"
  else
    match d.synergySets with
    | none => none
    | some sets => validateSets sets 0

/-- The per-set copy performed when `updateCharacter` writes the draft's
synergy sets back: blank entries are filtered out of the id lists and
empty lists become absent. -/
def cleanSet (set : SynergySet) : SynergySet :=
  { set with
    characters :=
      match set.characters with
      | some cs =>
          let filtered := cs.filter fun c => c.trim != ""
          if 0 < filtered.length then some filtered else none
      | none => none
    skipIfPresentCharacters :=
      match set.skipIfPresentCharacters with
      | some cs =>
          let filtered := cs.filter fun c => c.trim != ""
          if 0 < filtered.length then some filtered else none
      | none => none }

/-- The mutation suffix of `updateCharacter`: every field of the selected
character is overwritten from the draft (deleting absent optionals,
filtering blank entries). -/
def applyDraft (selectedCharacter : Character) (currentDraft : Draft) :
    Character :=
  { selectedCharacter with
    baseTier := currentDraft.baseTier
    omicronBoost := currentDraft.omicronBoost
    ignoreRequirements := currentDraft.ignoreRequirements
    ignoreSynergyRequirements := currentDraft.ignoreSynergyRequirements
    requiredZetas :=
      match currentDraft.requiredZetas with
      | some zs =>
          let filtered := zs.filter fun z => z.trim != ""
          if 0 < filtered.length then some filtered else none
      | none => none
    requiresAllZetas := currentDraft.requiresAllZetas
    requiredOmicrons :=
      match currentDraft.requiredOmicrons with
      | some os =>
          let filtered := os.filter fun o => o.trim != ""
          if 0 < filtered.length then some filtered else none
      | none => none
    requiresAllOmicrons := currentDraft.requiresAllOmicrons
    synergySets :=
      match currentDraft.synergySets with
      | some sets => some (sets.map cleanSet)
      | none => none
    categories :=
      match currentDraft.categories with
      | some cats =>
          if 0 < cats.length then
            let filtered := cats.filter fun cat => cat.trim != ""
            if 0 < filtered.length then some filtered else none
          else none
      | none => none }

/-- `updateCharacter`: validation first; on any failure the character is
returned untouched together with the alert message, otherwise the draft
is applied. -/
def updateCharacter (selectedCharacter : Character) (currentDraft : Draft) :
    Character × Option String :=
  match validateDraft currentDraft with
  | some msg => (selectedCharacter, some msg)
  | none => (applyDraft selectedCharacter currentDraft, none)

lemma checkSet_none {set : SynergySet} {i : Nat}
    (h : checkSet set i = none) :
    (∀ v, set.synergyEnhancement = some v → 0 ≤ v ∧ v ≤ 10) ∧
    (∀ v, set.synergyEnhancementOmicron = some v → 0 ≤ v ∧ v ≤ 10) ∧
    (1 ≤ getSynergySlotUsage set ∧ getSynergySlotUsage set ≤ 4) := by
  unfold checkSet at h
  by_cases h1 : (match set.synergyEnhancement with
      | some v => decide (v < 0) || decide (10 < v)
      | none => false) = true
  · rw [if_pos h1] at h
    cases h
  · rw [if_neg h1] at h
    by_cases h2 : (match set.synergyEnhancementOmicron with
        | some v => decide (v < 0) || decide (10 < v)
        | none => false) = true
    · rw [if_pos h2] at h
      cases h
    · rw [if_neg h2] at h
      by_cases h3 : getSynergySlotUsage set < 1 ∨ 4 < getSynergySlotUsage set
      · rw [if_pos h3] at h
        cases h
      · refine ⟨?_, ?_, by omega⟩
        · intro v hv
          rw [hv] at h1
          simp at h1
          omega
        · intro v hv
          rw [hv] at h2
          simp at h2
          omega

lemma validateSets_none (sets : List SynergySet) :
    ∀ i, validateSets sets i = none →
      ∀ s ∈ sets,
        (∀ v, s.synergyEnhancement = some v → 0 ≤ v ∧ v ≤ 10) ∧
        (∀ v, s.synergyEnhancementOmicron = some v → 0 ≤ v ∧ v ≤ 10) ∧
        (1 ≤ getSynergySlotUsage s ∧ getSynergySlotUsage s ≤ 4) := by
  induction sets with
  | nil => intro i _ s hs; cases hs
  | cons set rest ih =>
      intro i h s hs
      have hsplit : checkSet set i = none ∧ validateSets rest (i + 1) = none := by
        unfold validateSets at h
        cases hc : checkSet set i with
        | some msg => rw [hc] at h; cases h
        | none => rw [hc] at h; exact ⟨rfl, h⟩
      rw [List.mem_cons] at hs
      rcases hs with rfl | hs
      · exact checkSet_none hsplit.1
      · exact ih (i + 1) hsplit.2 s hs

lemma validateDraft_none {d : Draft} (h : validateDraft d = none) :
    (1 ≤ d.baseTier ∧ d.baseTier ≤ 19) ∧
    (∀ v, d.omicronBoost = some v → 0 ≤ v ∧ v ≤ 10) ∧
    (∀ s ∈ d.synergySets.getD [],
      (∀ v, s.synergyEnhancement = some v → 0 ≤ v ∧ v ≤ 10) ∧
      (∀ v, s.synergyEnhancementOmicron = some v → 0 ≤ v ∧ v ≤ 10) ∧
      (1 ≤ getSynergySlotUsage s ∧ getSynergySlotUsage s ≤ 4)) := by
  unfold validateDraft at h
  by_cases h1 : d.baseTier < 1 ∨ 19 < d.baseTier
  · rw [if_pos h1] at h
    cases h
  · rw [if_neg h1] at h
    by_cases h2 : (match d.omicronBoost with
        | some v => decide (v < 0) || decide (10 < v)
        | none => false) = true
    · rw [if_pos h2] at h
      cases h
    · rw [if_neg h2] at h
      refine ⟨by omega, ?_, ?_⟩
      · intro v hv
        rw [hv] at h2
        simp at h2
        omega
      · cases hss : d.synergySets with
        | none =>
            intro s hs
            simp at hs
        | some sets =>
            rw [hss] at h
            intro s hs
            simp only [Option.getD_some] at hs
            exact validateSets_none sets 0 h s hs

/-- C8: if any of the commit-time checks of `updateCharacter` fails
(base tier out of `[1,19]`, present `omicronBoost` out of `[0,10]`,
present enhancement out of `[0,10]`, or slot usage outside `1..4`), the
operation surfaces a reason message and the committed record is
completely unchanged. -/
theorem update_character_atomic_on_failure (c : Character) (d : Draft)
    (h : ¬(1 ≤ d.baseTier ∧ d.baseTier ≤ 19) ∨
      (∃ v, d.omicronBoost = some v ∧ ¬(0 ≤ v ∧ v ≤ 10)) ∨
      (∃ s ∈ d.synergySets.getD [],
        (∃ v, s.synergyEnhancement = some v ∧ ¬(0 ≤ v ∧ v ≤ 10)) ∨
        (∃ v, s.synergyEnhancementOmicron = some v ∧ ¬(0 ≤ v ∧ v ≤ 10)) ∨
        ¬(1 ≤ getSynergySlotUsage s ∧ getSynergySlotUsage s ≤ 4))) :
    (updateCharacter c d).1 = c ∧ (updateCharacter c d).2.isSome = true := by
  have hvd : validateDraft d ≠ none := by
    intro hnone
    obtain ⟨h1, h2, h3⟩ := validateDraft_none hnone
    rcases h with h | h | h
    · exact h h1
    · obtain ⟨v, hv, hbad⟩ := h
      exact hbad (h2 v hv)
    · obtain ⟨s, hs, hbad⟩ := h
      obtain ⟨c1, c2, c3⟩ := h3 s hs
      rcases hbad with ⟨v, hv, hb⟩ | ⟨v, hv, hb⟩ | hb
      · exact hb (c1 v hv)
      · exact hb (c2 v hv)
      · exact hb c3
  cases hv : validateDraft d with
  | none => exact absurd hv hvd
  | some msg =>
      unfold updateCharacter
      rw [hv]
      exact ⟨rfl, rfl⟩

/-- A draft whose base tier 0 violates the `[1,19]` range. -/
def draftBadTier : Draft :=
  ⟨"A", 0, none, none, none, none, none, none, none, none, none⟩

theorem update_character_atomic_on_failure_witness :
    (updateCharacter (bareChar "A" 5) draftBadTier).1 = bareChar "A" 5 ∧
    (updateCharacter (bareChar "A" 5) draftBadTier).2.isSome = true :=
  update_character_atomic_on_failure (bareChar "A" 5) draftBadTier
    (Or.inl (by decide))

lemma foldl_add_matches (defs : List CategoryDefinition) :
    ∀ a : Int,
      defs.foldl (fun sum catDef => sum + catDef.numberMatchesRequired.getD 0)
        a =
      a + (defs.map fun catDef => catDef.numberMatchesRequired.getD 0).sum := by
  induction defs with
  | nil => intro a; simp
  | cons d rest ih =>
      intro a
      simp only [List.foldl_cons, List.map_cons, List.sum_cons]
      rw [ih (a + d.numberMatchesRequired.getD 0)]
      ring

/-- A synergy set with two explicit characters and one category
definition requiring 2 matches: slot usage 4. -/
def slotSet4 : SynergySet :=
  ⟨some 3, none, some ["B", "C"], none, some [⟨some ["Sith"], none, some 2⟩]⟩

/-- Same set with the category definition requiring 3 matches: slot
usage 5. -/
def slotSet5 : SynergySet :=
  ⟨some 3, none, some ["B", "C"], none, some [⟨some ["Sith"], none, some 3⟩]⟩

/-- A draft carrying `slotSet4`, otherwise valid. -/
def draftSlot4 : Draft :=
  ⟨"A", 5, none, none, none, none, none, none, none, none, some [slotSet4]⟩

/-- A draft carrying `slotSet5`, otherwise valid. -/
def draftSlot5 : Draft :=
  ⟨"A", 5, none, none, none, none, none, none, none, none, some [slotSet5]⟩

/-- C7: slot usage is the explicit character count plus the sum of
`numberMatchesRequired` over the category definitions (absent arrays
count as empty); a set with 2 characters and one definition requiring 2
matches has usage 4 and commits, while requiring 3 gives usage 5 and is
rejected by `updateCharacter`. -/
theorem synergy_slot_usage (s : SynergySet) :
    getSynergySlotUsage s =
      ((s.characters.getD []).length : Int) +
        ((s.categoryDefinitions.getD []).map
          fun catDef => catDef.numberMatchesRequired.getD 0).sum ∧
    getSynergySlotUsage slotSet4 = 4 ∧
    (updateCharacter (bareChar "A" 8) draftSlot4).2 = none ∧
    getSynergySlotUsage slotSet5 = 5 ∧
    (updateCharacter (bareChar "A" 8) draftSlot5).2.isSome = true := by
  refine ⟨?_, rfl, rfl, rfl, rfl⟩
  unfold getSynergySlotUsage
  cases hc : s.characters with
  | none =>
      cases hd : s.categoryDefinitions with
      | none => simp
      | some defs =>
          simp only [Option.getD_some, Option.getD_none, List.length_nil]
          rw [foldl_add_matches defs 0]
          omega
  | some cs =>
      cases hd : s.categoryDefinitions with
      | none => simp
      | some defs =>
          simp only [Option.getD_some]
          rw [foldl_add_matches defs 0]
          omega

/-! ### Persisted order (`saveData` / `exportData`) -/

/-- Modelled from the spec and the ECMAScript platform: both `saveData`
and `exportData` sort with `characterData.sort((a, b) =>
a.id.localeCompare(b.id))`.  `localeCompare` is not part of the
repository; under the default root collation of mainstream engines
(ICU), punctuation such as the underscore receives a primary weight
below digits and letters.  `localeWeight` models that collation on the
id alphabet `A`-`Z`, `0`-`9`, `_`: underscore first, then digits, then
letters. -/
def localeWeight (c : Char) : Nat :=
  if c = '_' then 0
  else if c.isDigit then 1 + c.toNat
  else 100 + c.toNat

/-- Lexicographic comparison of weight lists. -/
def weightListLe : List Nat → List Nat → Bool
  | [], _ => true
  | _ :: _, [] => false
  | x :: xs, y :: ys =>
      if x < y then true
      else if y < x then false
      else weightListLe xs ys

/-- `a.localeCompare(b) <= 0` under the modelled root collation. -/
def localeLe (a b : String) : Bool :=
  weightListLe (a.data.map localeWeight) (b.data.map localeWeight)

/-- Insertion step of the sort performed before every write. -/
def insertChar (x : Character) : List Character → List Character
  | [] => [x]
  | y :: ys =>
      if localeLe x.id y.id then x :: y :: ys else y :: insertChar x ys

/-- The in-place `characterData.sort((a, b) => a.id.localeCompare(b.id))`
of `saveData` and `exportData`, modelled as a comparison sort consistent
with the comparator. -/
def sortCharacters : List Character → List Character
  | [] => []
  | x :: xs => insertChar x (sortCharacters xs)

/-- Case-sensitive (code-point) lexicographic comparison of character
lists: the spec's "ascending, case-sensitive" order on id strings. -/
def charListLe : List Char → List Char → Bool
  | [], _ => true
  | _ :: _, [] => false
  | x :: xs, y :: ys =>
      if x.toNat < y.toNat then true
      else if y.toNat < x.toNat then false
      else charListLe xs ys

/-- The spec's canonical persisted order: ascending, case-sensitive
(code-point) comparison of the id strings. -/
def sortedById (l : List Character) : Prop :=
  l.Pairwise fun a b => charListLe a.id.data b.id.data = true

instance (l : List Character) : Decidable (sortedById l) := by
  unfold sortedById
  infer_instance

/-- C9 evaluation at the failing input: sorting the two valid ids `AB`
and `A_B` with the `localeCompare` comparator places `A_B` first,
although the case-sensitive (code-point) ascending order required by the
spec and by the repository's own validation rules places `AB` first.
The write path therefore does not restore the canonical persisted
order. -/
theorem save_sort_not_codepoint_ascending :
    sortCharacters [bareChar "AB" 5, bareChar "A_B" 5] =
      [bareChar "A_B" 5, bareChar "AB" 5] ∧
    ¬sortedById (sortCharacters [bareChar "AB" 5, bareChar "A_B" 5]) ∧
    sortedById [bareChar "AB" 5, bareChar "A_B" 5] := by
  refine ⟨rfl, by decide, by decide⟩

/-! ### Draft dirty tracking (`deepEqualDrafts` / `initializeDraft`) -/

/-- Elementwise list comparison as the source loops do it: equal lengths
and equal entries. -/
def eqListBy (f : α → α → Bool) (l1 l2 : List α) : Bool :=
  l1.length == l2.length && (l1.zip l2).all fun p => f p.1 p.2

/-- Optional-array comparison as the source does it: presence must
agree (`(a === undefined) !== (b === undefined)` fails), then the
entries are compared. -/
def eqOptListBy (f : α → α → Bool) :
    Option (List α) → Option (List α) → Bool
  | none, none => true
  | some l1, some l2 => eqListBy f l1 l2
  | _, _ => false

/-- Category-definition comparison inside `deepEqualDrafts`. -/
def eqCatDef (d1 d2 : CategoryDefinition) : Bool :=
  d1.numberMatchesRequired == d2.numberMatchesRequired &&
  eqOptListBy (fun a b => a == b) d1.incl d2.incl &&
  eqOptListBy (fun a b => a == b) d1.excl d2.excl

/-- Synergy-set comparison inside `deepEqualDrafts`. -/
def eqSynergySet (s1 s2 : SynergySet) : Bool :=
  s1.synergyEnhancement == s2.synergyEnhancement &&
  s1.synergyEnhancementOmicron == s2.synergyEnhancementOmicron &&
  eqOptListBy (fun a b => a == b) s1.characters s2.characters &&
  eqOptListBy eqCatDef s1.categoryDefinitions s2.categoryDefinitions &&
  eqOptListBy (fun a b => a == b) s1.skipIfPresentCharacters
    s2.skipIfPresentCharacters

/-- The `ir?.gear || false` / `ir?.rarity || false` coercion applied to
both ignore-requirement objects before comparison. -/
def flagsOf : Option IgnoreReq → Bool × Bool
  | none => (false, false)
  | some r => (r.gear.getD false, r.rarity.getD false)

/-- `deepEqualDrafts`, field for field in source order. -/
def deepEqualDrafts (draft1 draft2 : Draft) : Bool :=
  draft1.baseTier == draft2.baseTier &&
  draft1.omicronBoost == draft2.omicronBoost &&
  draft1.requiresAllZetas == draft2.requiresAllZetas &&
  draft1.requiresAllOmicrons == draft2.requiresAllOmicrons &&
  (flagsOf draft1.ignoreRequirements).1 ==
    (flagsOf draft2.ignoreRequirements).1 &&
  (flagsOf draft1.ignoreRequirements).2 ==
    (flagsOf draft2.ignoreRequirements).2 &&
  (flagsOf draft1.ignoreSynergyRequirements).1 ==
    (flagsOf draft2.ignoreSynergyRequirements).1 &&
  (flagsOf draft1.ignoreSynergyRequirements).2 ==
    (flagsOf draft2.ignoreSynergyRequirements).2 &&
  eqOptListBy (fun a b => a == b) draft1.requiredZetas draft2.requiredZetas &&
  eqOptListBy (fun a b => a == b) draft1.requiredOmicrons
    draft2.requiredOmicrons &&
  eqOptListBy (fun a b => a == b) draft1.categories draft2.categories &&
  eqOptListBy eqSynergySet draft1.synergySets draft2.synergySets

/-- The draft-session state: the edited draft, the captured baseline and
the dirty flag. -/
structure DraftState where
  draft : Draft
  baseline : Draft
  dirty : Bool
deriving DecidableEq, Repr

/-- `refreshDraftDirtyState` (for an open session, both drafts
present). -/
def refreshDraftDirtyState (st : DraftState) : DraftState :=
  { st with dirty := !deepEqualDrafts st.draft st.baseline }

/-- `initializeDraft`: both `currentDraft` and `currentDraftBaseline`
are built from the same snapshot of the character, and the dirty flag is
cleared. -/
def initializeDraft (character : Character) : DraftState :=
  let draftSnapshot : Draft :=
    ⟨character.id, character.baseTier, character.omicronBoost,
     character.ignoreRequirements, character.ignoreSynergyRequirements,
     character.requiredZetas, character.requiresAllZetas,
     character.requiredOmicrons, character.requiresAllOmicrons,
     character.categories, character.synergySets⟩
  ⟨draftSnapshot, draftSnapshot, false⟩

/-- What `deepEqualDrafts` actually observes of a draft: everything but
`characterId`, with the two ignore-requirement objects flattened through
the `|| false` coercion. -/
def draftKey (d : Draft) :
    Int × Option Int × Bool × Bool × Bool × Bool ×
      Option (List String) × Option Bool × Option (List String) ×
      Option Bool × Option (List String) × Option (List SynergySet) :=
  (d.baseTier, d.omicronBoost, (flagsOf d.ignoreRequirements).1,
   (flagsOf d.ignoreRequirements).2,
   (flagsOf d.ignoreSynergyRequirements).1,
   (flagsOf d.ignoreSynergyRequirements).2,
   d.requiredZetas, d.requiresAllZetas, d.requiredOmicrons,
   d.requiresAllOmicrons, d.categories, d.synergySets)

lemma eqListBy_iff {α : Type} (f : α → α → Bool)
    (hf : ∀ a b, f a b = true ↔ a = b) :
    ∀ l1 l2 : List α, eqListBy f l1 l2 = true ↔ l1 = l2 := by
  intro l1
  induction l1 with
  | nil =>
      intro l2
      cases l2 with
      | nil => simp [eqListBy]
      | cons y ys => simp [eqListBy]
  | cons x xs ih =>
      intro l2
      cases l2 with
      | nil => simp [eqListBy]
      | cons y ys =>
          have h := ih ys
          simp only [eqListBy, List.length_cons, List.zip_cons_cons,
            List.all_cons, Bool.and_eq_true, beq_iff_eq] at h ⊢
          constructor
          · rintro ⟨hlen, hxy, hall⟩
            rw [(hf x y).mp hxy, h.mp ⟨by omega, hall⟩]
          · intro heq
            injection heq with h1 h2
            obtain ⟨hl, ha⟩ := h.mpr h2
            exact ⟨by omega, (hf x y).mpr h1, ha⟩

lemma eqOptListBy_iff {α : Type} (f : α → α → Bool)
    (hf : ∀ a b, f a b = true ↔ a = b) :
    ∀ o1 o2 : Option (List α), eqOptListBy f o1 o2 = true ↔ o1 = o2 := by
  intro o1 o2
  cases o1 with
  | none => cases o2 <;> simp [eqOptListBy]
  | some l1 =>
      cases o2 with
      | none => simp [eqOptListBy]
      | some l2 => simp [eqOptListBy, eqListBy_iff f hf]

lemma beq_string_iff : ∀ a b : String, ((a == b) = true ↔ a = b) :=
  fun _ _ => beq_iff_eq

lemma eqCatDef_iff : ∀ d1 d2 : CategoryDefinition,
    eqCatDef d1 d2 = true ↔ d1 = d2 := by
  intro d1 d2
  cases d1
  cases d2
  simp [eqCatDef, Bool.and_eq_true,
    eqOptListBy_iff (fun a b : String => a == b) beq_string_iff, and_assoc]
  tauto

lemma eqSynergySet_iff : ∀ s1 s2 : SynergySet,
    eqSynergySet s1 s2 = true ↔ s1 = s2 := by
  intro s1 s2
  cases s1
  cases s2
  simp [eqSynergySet, Bool.and_eq_true,
    eqOptListBy_iff (fun a b : String => a == b) beq_string_iff,
    eqOptListBy_iff eqCatDef eqCatDef_iff, and_assoc]
  tauto

/-- C10 counterexample: a draft without `ignoreRequirements` and one
carrying the explicit object `{gear: false}` are structurally different
records, yet `deepEqualDrafts` reports them equal, because the ignore
objects are only compared through the `?.gear || false` coercion.  So
the dirty predicate is not full structural equality distinguishing
absence from presence. -/
def draftNoIgnore : Draft :=
  ⟨"A", 5, none, none, none, none, none, none, none, none, none⟩

/-- The same draft with an explicit all-default ignore object. -/
def draftFalseIgnore : Draft :=
  ⟨"A", 5, none, some ⟨some false, none⟩, none, none, none, none, none,
    none, none⟩

theorem deep_equal_not_full_structural :
    deepEqualDrafts draftNoIgnore draftFalseIgnore = true ∧
    draftNoIgnore ≠ draftFalseIgnore :=
  ⟨rfl, by decide⟩

/-- C10 amended: `deepEqualDrafts` is structural equality on every field
except `characterId` (ignored) and the two ignore-requirement objects,
which are compared through the `|| false` flag coercion (absent object,
empty object and all-false flags are identified); absent optional arrays
are still distinguished from empty ones.  `refreshDraftDirtyState` sets
the dirty flag exactly when `deepEqualDrafts` fails, and a freshly
opened draft is clean. -/
theorem deep_equal_drafts_characterization :
    (∀ d1 d2 : Draft,
      deepEqualDrafts d1 d2 = true ↔ draftKey d1 = draftKey d2) ∧
    (∀ st : DraftState,
      (refreshDraftDirtyState st).dirty =
        !deepEqualDrafts st.draft st.baseline) ∧
    (∀ character : Character,
      (initializeDraft character).dirty = false ∧
      deepEqualDrafts (initializeDraft character).draft
        (initializeDraft character).baseline = true) := by
  have hmain : ∀ d1 d2 : Draft,
      deepEqualDrafts d1 d2 = true ↔ draftKey d1 = draftKey d2 := by
    intro d1 d2
    simp only [deepEqualDrafts, draftKey, Bool.and_eq_true, beq_iff_eq,
      eqOptListBy_iff (fun a b : String => a == b) beq_string_iff,
      eqOptListBy_iff eqSynergySet eqSynergySet_iff, Prod.mk.injEq]
    tauto
  refine ⟨hmain, fun st => rfl, fun character => ⟨rfl, ?_⟩⟩
  exact (hmain _ _).mpr rfl

end StackRank
